import Mathlib

/-!
Verification development for the Teams chat export pipeline
(`teams_utils.py`, `teams_chat_export.py`).

The message bodies are HTML strings processed with Python `re` substitutions;
we embed each concrete regular expression used by the source as a dedicated
character-list scanner that reproduces Python's leftmost, non-overlapping
match semantics (including the greedy backtracking of the bounded character
classes in those patterns).  Side effects (filesystem, HTTP) are passed in as
explicit environments.  All functions use structural recursion (with an
explicit fuel argument bounded by the input length where needed) so that they
evaluate inside the kernel.
-/

/-- Membership in Python's `str.strip()` default whitespace set
(space, tab, newline, carriage return, vertical tab, form feed). -/
def pyWhitespace (c : Char) : Bool :=
  c = ' ' || c = '\t' || c = '\n' || c = '\r' || c = Char.ofNat 11 || c = Char.ofNat 12

/-- Python `str.strip()`: drop whitespace from both ends. -/
def stripWS (l : List Char) : List Char :=
  ((l.dropWhile pyWhitespace).reverse.dropWhile pyWhitespace).reverse

/-- Split a character list at the first occurrence of `target`:
`splitAtFirst t l = some (pre, post)` iff `l = pre ++ t :: post` and `t ∉ pre`. -/
def splitAtFirst (target : Char) : List Char → Option (List Char × List Char)
  | [] => none
  | c :: rest =>
    if c = target then some ([], rest)
    else
      match splitAtFirst target rest with
      | some (pre, post) => some (c :: pre, post)
      | none => none

/-- Python's `pat in s` substring test. -/
def containsSub (pat : List Char) : List Char → Bool
  | [] => pat.isEmpty
  | l@(_ :: rest) => pat.isPrefixOf l || containsSub pat rest

/-- Fuel-driven worker for `replaceAll`. -/
def replaceAllAux (pat rep : List Char) : Nat → List Char → List Char
  | 0, l => l
  | _, [] => []
  | f + 1, l@(c :: rest) =>
    if !pat.isEmpty && pat.isPrefixOf l then
      rep ++ replaceAllAux pat rep f (l.drop pat.length)
    else
      c :: replaceAllAux pat rep f rest

/-- Python `str.replace(pat, rep)`: replace every non-overlapping occurrence,
left to right.  (Python's special treatment of an empty `pat` is not needed:
the source only replaces regex captures matched by `[^"]+`, never empty.) -/
def replaceAll (pat rep l : List Char) : List Char :=
  replaceAllAux pat rep l.length l

/-- Length of the longest leading run of characters other than `>` —
the furthest a `[^>]*` / `[^>]+` class can reach in the source's patterns. -/
def gtFreeLen (l : List Char) : Nat :=
  (l.takeWhile (fun c => c ≠ '>')).length

/-- Decimal digits to a number (for numeric character references). -/
def digitsToNat (l : List Char) : Nat :=
  l.foldl (fun n c => n * 10 + (c.toNat - 48)) 0

/-- Fuel-driven worker for `html_unescape`. -/
def htmlUnescapeAux : Nat → List Char → List Char
  | 0, l => l
  | _, [] => []
  | f + 1, c :: rest =>
    if c = '&' then
      if "amp;".data.isPrefixOf rest then '&' :: htmlUnescapeAux f (rest.drop 4)
      else if "lt;".data.isPrefixOf rest then '<' :: htmlUnescapeAux f (rest.drop 3)
      else if "gt;".data.isPrefixOf rest then '>' :: htmlUnescapeAux f (rest.drop 3)
      else if "quot;".data.isPrefixOf rest then '"' :: htmlUnescapeAux f (rest.drop 5)
      else if "apos;".data.isPrefixOf rest then Char.ofNat 39 :: htmlUnescapeAux f (rest.drop 5)
      else
        match rest with
        | '#' :: ds =>
          let digits := ds.takeWhile Char.isDigit
          if digits.isEmpty then c :: htmlUnescapeAux f rest
          else
            match ds.drop digits.length with
            | ';' :: tail2 => Char.ofNat (digitsToNat digits) :: htmlUnescapeAux f tail2
            | _ => c :: htmlUnescapeAux f rest
        | _ => c :: htmlUnescapeAux f rest
    else c :: htmlUnescapeAux f rest

/-- Model of Python `html.unescape`, restricted to the five XML core named
entities (with trailing `;`) and decimal character references `&#...;`; the
full HTML5 entity table is not reproduced.  Like the real function, a string
containing no `&` is returned unchanged — every message body appearing in the
claims below is of that kind, so the restriction is never exercised. -/
def html_unescape (l : List Char) : List Char :=
  htmlUnescapeAux l.length l

/-- Lazy `.*?</tag>` search (the `.` of Python `re` does not cross a newline):
scan for the first occurrence of `pat`, failing on `\n`; on success return the
suffix after `pat`. -/
def lazyFindNoNL (pat : List Char) : List Char → Option (List Char)
  | [] => if pat.isEmpty then some [] else none
  | l@(c :: rest) =>
    if pat.isPrefixOf l then some (l.drop pat.length)
    else if c = '\n' then none
    else lazyFindNoNL pat rest

/-- Backtracking core of the emoji pattern
`<emoji[^>]*alt="([^"]+)"[^>]*>.*?</emoji>`: `l` is the text after the
literal `<emoji`; the first argument enumerates the candidate lengths of the
leading `[^>]*` from longest (greedy) to shortest; on success returns the
`alt` capture and the suffix after the whole match. -/
def tryEmojiFrom : Nat → List Char → Option (List Char × List Char)
  | 0, _ => none
  | n + 1, l =>
    let cand :=
      if ((l.take n).all fun c => c ≠ '>') && "alt=\"".data.isPrefixOf (l.drop n) then
        match splitAtFirst '"' (l.drop (n + 5)) with
        | some (alt, rest2) =>
          if alt.isEmpty then none
          else
            match splitAtFirst '>' rest2 with
            | some (_, post) =>
              match lazyFindNoNL "</emoji>".data post with
              | some rest3 => some (alt, rest3)
              | none => none
            | none => none
        | none => none
      else none
    match cand with
    | some r => some r
    | none => tryEmojiFrom n l

/-- Fuel-driven scanner for `replace_emoji_tags`. -/
def emojiReplaceAux : Nat → List Char → List Char
  | 0, l => l
  | _, [] => []
  | f + 1, l@(c :: rest) =>
    if "<emoji".data.isPrefixOf l then
      match tryEmojiFrom (gtFreeLen (l.drop 6) + 1) (l.drop 6) with
      | some (alt, after) => alt ++ emojiReplaceAux f after
      | none => c :: emojiReplaceAux f rest
    else c :: emojiReplaceAux f rest

/-- Embedding of `teams_utils.replace_emoji_tags`:
`re.sub(r'<emoji[^>]*alt="([^"]+)"[^>]*>.*?</emoji>', r'\1', text)`. -/
def replace_emoji_tags (l : List Char) : List Char :=
  emojiReplaceAux l.length l

/-- Backtracking core of the findall pattern `<img[^>]+src="([^"]+)"`:
`l` is the text after the literal `<img`; the first argument enumerates the
candidate lengths of `[^>]+` (at least one character) from longest to
shortest; on success returns the `src` capture and the suffix after the
closing quote (the end of the whole match). -/
def tryImgFrom : Nat → List Char → Option (List Char × List Char)
  | 0, _ => none
  | n + 1, l =>
    let cand :=
      if ((l.take (n + 1)).all fun c => c ≠ '>') && "src=\"".data.isPrefixOf (l.drop (n + 1)) then
        match splitAtFirst '"' (l.drop (n + 1 + 5)) with
        | some (url, rest2) => if url.isEmpty then none else some (url, rest2)
        | none => none
      else none
    match cand with
    | some r => some r
    | none => tryImgFrom n l

/-- Fuel-driven scanner for `findImgSrcs`. -/
def findImgSrcsAux : Nat → List Char → List (List Char)
  | 0, _ => []
  | _, [] => []
  | f + 1, l@(_ :: rest) =>
    if "<img".data.isPrefixOf l then
      match tryImgFrom (gtFreeLen (l.drop 4)) (l.drop 4) with
      | some (url, after) => url :: findImgSrcsAux f after
      | none => findImgSrcsAux f rest
    else findImgSrcsAux f rest

/-- Embedding of `re.findall(r'<img[^>]+src="([^"]+)"', content)`, the image
reference scan used by both `process_message_content` and
`validate_message_content`. -/
def findImgSrcs (l : List Char) : List (List Char) :=
  findImgSrcsAux l.length l

/-- Backtracking core of the pattern `<img[^>]*src="([^"]+)"[^>]*>` of
`clean_img_tags`: `l` is the text after the literal `<img`; the first
argument enumerates the candidate lengths of the leading `[^>]*` (here the
empty run is allowed) from longest to shortest; on success returns the `src`
capture and the suffix after the closing `>`. -/
def tryCleanFrom : Nat → List Char → Option (List Char × List Char)
  | 0, _ => none
  | n + 1, l =>
    let cand :=
      if ((l.take n).all fun c => c ≠ '>') && "src=\"".data.isPrefixOf (l.drop n) then
        match splitAtFirst '"' (l.drop (n + 5)) with
        | some (url, rest2) =>
          if url.isEmpty then none
          else
            match splitAtFirst '>' rest2 with
            | some (_, post) => some (url, post)
            | none => none
        | none => none
      else none
    match cand with
    | some r => some r
    | none => tryCleanFrom n l

/-- Fuel-driven scanner for `clean_img_tags`. -/
def cleanImgAux : Nat → List Char → List Char
  | 0, l => l
  | _, [] => []
  | f + 1, l@(c :: rest) =>
    if "<img".data.isPrefixOf l then
      match tryCleanFrom (gtFreeLen (l.drop 4) + 1) (l.drop 4) with
      | some (url, after) => "<img src=\"".data ++ url ++ "\">".data ++ cleanImgAux f after
      | none => c :: cleanImgAux f rest
    else c :: cleanImgAux f rest

/-- Embedding of `teams_utils.clean_img_tags`:
`re.sub(r'<img[^>]*src="([^"]+)"[^>]*>', r'<img src="\1">', content)`.
Note the pattern places no condition on the URL: every `img` element is
rewritten to retain only its `src` attribute, platform-hosted or not. -/
def clean_img_tags (l : List Char) : List Char :=
  cleanImgAux l.length l

/-- Match step of the pattern `<img src="([^"]+)"\s*/?>` of
`wrap_images_with_lightbox`: `l` is the text after the literal `<img src="`;
on success returns the capture and the suffix after the closing `>`. -/
def tryWrapAt (l : List Char) : Option (List Char × List Char) :=
  match splitAtFirst '"' l with
  | some (url, rest2) =>
    if url.isEmpty then none
    else
      match rest2.dropWhile pyWhitespace with
      | '/' :: '>' :: post => some (url, post)
      | '>' :: post => some (url, post)
      | _ => none
  | none => none

/-- Fuel-driven scanner for `wrap_images_with_lightbox`. -/
def wrapImagesAux : Nat → List Char → List Char
  | 0, l => l
  | _, [] => []
  | f + 1, l@(c :: rest) =>
    if "<img src=\"".data.isPrefixOf l then
      match tryWrapAt (l.drop 10) with
      | some (url, after) =>
        "<a href=\"".data ++ url ++ "\" class=\"lightbox\"><img src=\"".data ++ url
          ++ "\"></a>".data ++ wrapImagesAux f after
      | none => c :: wrapImagesAux f rest
    else c :: wrapImagesAux f rest

/-- Embedding of `teams_utils.wrap_images_with_lightbox`:
`re.sub(r'<img src="([^"]+)"\s*/?>', r'<a href="\1" class="lightbox"><img src="\1"></a>', content)`.
The pattern matches every cleaned `img` element regardless of its URL,
including one that is already inside a lightbox anchor. -/
def wrap_images_with_lightbox (l : List Char) : List Char :=
  wrapImagesAux l.length l

/-- Fuel-driven scanner for `stripTags`. -/
def stripTagsAux : Nat → List Char → List Char
  | 0, l => l
  | _, [] => []
  | f + 1, '<' :: rest =>
    match splitAtFirst '>' rest with
    | some (pre, post) => if pre.isEmpty then '<' :: stripTagsAux f rest else stripTagsAux f post
    | none => '<' :: stripTagsAux f rest
  | f + 1, c :: rest => c :: stripTagsAux f rest

/-- Embedding of `re.sub(r'<[^>]+>', '', raw_content)`, the tag-stripping
step of `validate_message_content`. -/
def stripTags (l : List Char) : List Char :=
  stripTagsAux l.length l

/-- Decimal digit character. -/
def digitChar (n : Nat) : Char := Char.ofNat (48 + n)

/-- Fuel-driven worker for `natToStr`. -/
def natToStrAux : Nat → Nat → List Char → List Char
  | 0, n, acc => digitChar n :: acc
  | f + 1, n, acc =>
    if n < 10 then digitChar n :: acc
    else natToStrAux f (n / 10) (digitChar (n % 10) :: acc)

/-- Decimal rendering of a natural number (Python `f"{index}"`). -/
def natToStr (n : Nat) : String := String.mk (natToStrAux n n [])

/-- Environment standing for the side effects of `download_image_from_src`:
`fileExists path` is the `os.path.exists` probe, and `http url` is the
outcome of `requests.get(url, ...)` — `none` when the call raises an
exception and `some status` when it returns a response with that HTTP status
code (the body bytes are irrelevant to the claims and are not modelled). -/
structure ImgEnv where
  fileExists : String → Bool
  http : String → Option Nat

/-- Local image file path `os.path.join(folder, f"{message_id}_img{index}.jpg")`,
for a relative `folder`; `os.path.relpath(local_path, start=os.path.dirname('index.html'))`
is the path itself (`dirname('index.html')` is `''`), so this is also the value
`download_image_from_src` returns on success. -/
def localImagePath (folder message_id : String) (index : Nat) : String :=
  folder ++ "/" ++ message_id ++ "_img" ++ natToStr index ++ ".jpg"

/-- Embedding of `teams_utils.download_image_from_src`.  If the file already
exists, no request is made and the path is returned.  Otherwise a GET is
issued: if it raises (`env.http = none`) the function returns `None`; if it
returns a response, the body is written to disk only when the status is 200,
but the control flow falls through to the final `return` either way, so the
local path is returned for every non-raising response — including a
non-success status for which nothing was written.  (`token` only feeds the
Authorization header, which lives inside `env.http`.) -/
def download_image_from_src (env : ImgEnv) (src_url token folder message_id : String)
    (index : Nat) : Option String :=
  let local_path := localImagePath folder message_id index
  if env.fileExists local_path then some local_path
  else
    match env.http src_url with
    | none => none
    | some _status => some local_path

/-- Test `img_url.startswith("https://graph.microsoft.com")`. -/
def isGraphUrl (u : List Char) : Bool :=
  "https://graph.microsoft.com".data.isPrefixOf u

/-- The image loop of `process_message_content`: for each `findall` capture
in order (with its 0-based index), a platform-hosted URL is downloaded and,
when a path comes back, every occurrence of the URL in the content is
replaced by it (`str.replace`); any other URL is skipped. -/
def processImages (env : ImgEnv) (token folder message_id : String) :
    Nat → List (List Char) → List Char → List Char
  | _, [], content => content
  | idx, u :: us, content =>
    let content' :=
      if isGraphUrl u then
        match download_image_from_src env (String.mk u) token folder message_id idx with
        | some path => replaceAll u path.data content
        | none => content
      else content
    processImages env token folder message_id (idx + 1) us content'

/-- Companion to `processImages` recording the source URLs for which
`download_image_from_src` actually issues an HTTP GET: those that are
platform-hosted and whose target file does not already exist. -/
def imageRequests (env : ImgEnv) (folder message_id : String) :
    Nat → List (List Char) → List (List Char)
  | _, [] => []
  | idx, u :: us =>
    let rest := imageRequests env folder message_id (idx + 1) us
    if isGraphUrl u && !env.fileExists (localImagePath folder message_id idx) then u :: rest
    else rest

/-- Embedding of `teams_utils.process_message_content`: unescape HTML
entities, replace emoji elements by their alt text, download and substitute
platform-hosted images, then clean every `img` tag and wrap it in a lightbox
anchor. -/
def process_message_content (env : ImgEnv)
    (raw_content message_id access_token image_folder : String) : String :=
  let clean0 := html_unescape raw_content.data
  let clean1 := replace_emoji_tags clean0
  let img_matches := findImgSrcs clean1
  let clean2 := processImages env access_token image_folder message_id 0 img_matches clean1
  let clean3 := clean_img_tags clean2
  String.mk (wrap_images_with_lightbox clean3)

/-- The HTTP GETs issued while normalizing `raw_content` (the `imageRequests`
of the image loop run by `process_message_content`). -/
def imageRequestsOf (env : ImgEnv) (raw_content message_id image_folder : String) :
    List (List Char) :=
  imageRequests env image_folder message_id 0
    (findImgSrcs (replace_emoji_tags (html_unescape raw_content.data)))

/-- Shape of the `from` field of a raw message dict: missing (or not a usable
dict), present without a usable `user` dict, or present with a user whose
`displayName` may itself be missing. -/
inductive FromField where
  | absent : FromField
  | noUser : FromField
  | user (displayName : Option String) : FromField
deriving DecidableEq

/-- Raw message dict, restricted to the keys the export reads.  `none` models
a missing key. -/
structure Msg where
  id : String
  messageType : Option String
  fromField : FromField
  bodyContent : Option String
  createdDateTime : Option String
  lastModifiedDateTime : Option String
deriving DecidableEq

/-- Sender extraction shared verbatim by `validate_message_content`,
`_generate_chat_html`, `_generate_channel_html` and `_generate_message_html`:
the user's `displayName` when the nested dicts are usable, else `"Unknown"`. -/
def sender_of (msg : Msg) : String :=
  match msg.fromField with
  | FromField.user (some name) => name
  | FromField.user none => "Unknown"
  | FromField.noUser => "Unknown"
  | FromField.absent => "Unknown"

/-- Embedding of `teams_utils.validate_message_content`: discard non-`message`
types, `"Unknown"` senders, empty or whitespace-only bodies, and short
system-event stubs; otherwise keep iff tag-stripping leaves text or an image
reference is present. -/
def validate_message_content (msg : Msg) : Bool :=
  if msg.messageType ≠ some "message" then false
  else if sender_of msg = "Unknown" then false
  else
    let raw_content := (msg.bodyContent.getD "").data
    if stripWS raw_content = [] then false
    else if containsSub "<systemEventMessage/>".data raw_content ∧ (stripWS raw_content).length ≤ 50 then false
    else
      let text_only := stripWS (stripTags raw_content)
      (!text_only.isEmpty) || !(findImgSrcs raw_content).isEmpty

/-- Decision of `re.match(r'^<attachment id="[^"]*"></attachment>$', raw_stripped)`:
the stripped body is exactly an attachment element with a quote-free id (the
input is whitespace-stripped, so the `$` anchor is plain end-of-string). -/
def attachmentExactMatch (l : List Char) : Bool :=
  if "<attachment id=\"".data.isPrefixOf l then
    match splitAtFirst '"' (l.drop 16) with
    | some (_, post) => post == "></attachment>".data
    | none => false
  else false

/-- Embedding of the inline message filter duplicated in
`_generate_chat_html` (lines 538-568) and `_generate_channel_html`
(lines 603-634): drop `"Unknown"` senders, empty bodies, system-event
markers, and bare attachment stubs.  Unlike `validate_message_content` it
does not look at `messageType` and keeps everything else. -/
def renderKeep (msg : Msg) : Bool :=
  if sender_of msg = "Unknown" then false
  else
    let raw_content := (msg.bodyContent.getD "").data
    if stripWS raw_content = [] then false
    else
      let raw_stripped := stripWS raw_content
      if containsSub "<systemEventMessage/>".data raw_content
          || raw_stripped.isEmpty
          || raw_stripped == "<p></p>".data
          || raw_stripped == "<div></div>".data
          || ("<attachment id=".data.isPrefixOf raw_stripped
              && "</attachment>".data.isSuffixOf raw_stripped
              && decide (raw_stripped.length < 100))
          || attachmentExactMatch raw_stripped
      then false
      else true

/-- The synthetic message `fetch_teams_and_channels` substitutes when a
channel's filtered message list is empty; `now` stands for
`datetime.now().isoformat()`. -/
def noMessagesPlaceholder (now : String) : Msg :=
  { id := "no_messages"
    messageType := none
    fromField := FromField.user (some "System")
    bodyContent := some "No messages found in this channel."
    createdDateTime := some now
    lastModifiedDateTime := none }

/-- The per-channel message list stored by `fetch_teams_and_channels` for a
non-ignored channel: the fetched messages filtered by
`validate_message_content`, with the `"No messages found"` placeholder
substituted when the filter keeps nothing. -/
def channel_kept_messages (now : String) (msgs : List Msg) : List Msg :=
  let filtered := msgs.filter validate_message_content
  if filtered.isEmpty then [noMessagesPlaceholder now] else filtered

/-- Python string comparison: lexicographic on code points. -/
def lexLe : List Char → List Char → Bool
  | [], _ => true
  | _ :: _, [] => false
  | a :: as, b :: bs =>
    if a.toNat < b.toNat then true
    else if b.toNat < a.toNat then false
    else lexLe as bs

/-- Totality of `lexLe`. -/
theorem lexLe_total : ∀ a b : List Char, lexLe a b = true ∨ lexLe b a = true := by
  intro a
  induction a with
  | nil => intro b; left; rfl
  | cons x xs ih =>
    intro b
    cases b with
    | nil => right; rfl
    | cons y ys =>
      by_cases h1 : x.toNat < y.toNat
      · left; simp [lexLe, h1]
      · by_cases h2 : y.toNat < x.toNat
        · right; simp [lexLe, h2]
        · rcases ih ys with h | h
          · left; simp [lexLe, h1, h2, h]
          · right; simp [lexLe, h1, h2, h]

/-- Transitivity of `lexLe`. -/
theorem lexLe_trans : ∀ a b c : List Char,
    lexLe a b = true → lexLe b c = true → lexLe a c = true := by
  intro a
  induction a with
  | nil => intro b c _ _; rfl
  | cons x xs ih =>
    intro b c hab hbc
    cases b with
    | nil => simp [lexLe] at hab
    | cons y ys =>
      cases c with
      | nil => simp [lexLe] at hbc
      | cons z zs =>
        simp only [lexLe] at hab hbc ⊢
        by_cases h1 : x.toNat < y.toNat
        · by_cases h2 : y.toNat < z.toNat
          · have hxz : x.toNat < z.toNat := by omega
            simp [hxz]
          · by_cases h3 : z.toNat < y.toNat
            · rw [if_neg h2, if_pos h3] at hbc; simp at hbc
            · have hxz : x.toNat < z.toNat := by omega
              simp [hxz]
        · by_cases h1' : y.toNat < x.toNat
          · rw [if_neg h1, if_pos h1'] at hab; simp at hab
          · rw [if_neg h1, if_neg h1'] at hab
            by_cases h2 : y.toNat < z.toNat
            · have hxz : x.toNat < z.toNat := by omega
              simp [hxz]
            · by_cases h3 : z.toNat < y.toNat
              · rw [if_neg h2, if_pos h3] at hbc; simp at hbc
              · rw [if_neg h2, if_neg h3] at hbc
                have hxz : ¬x.toNat < z.toNat := by omega
                have hzx : ¬z.toNat < x.toNat := by omega
                rw [if_neg hxz, if_neg hzx]
                exact ih ys zs hab hbc

/-- The sort key `lambda x: x.get('createdDateTime', '')` of
`_generate_chat_html` / `_generate_channel_html`. -/
def createdKey (m : Msg) : List Char := (m.createdDateTime.getD "").data

/-- Comparison underlying `messages.sort(key=...)`: raw timestamp strings
compared lexicographically as Python strings. -/
def msgLe (a b : Msg) : Prop := lexLe (createdKey a) (createdKey b) = true

instance : DecidableRel msgLe :=
  fun a b => inferInstanceAs (Decidable (lexLe (createdKey a) (createdKey b) = true))

instance : IsTotal Msg msgLe := ⟨fun a b => lexLe_total _ _⟩

instance : IsTrans Msg msgLe := ⟨fun a b c => lexLe_trans _ _ _⟩

/-- Embedding of `messages.sort(key=lambda x: x.get('createdDateTime', ''))`:
Python's sort is a stable sort by the key, modelled by stable insertion sort
under `msgLe`. -/
def sortMessages (msgs : List Msg) : List Msg := List.insertionSort msgLe msgs

/-- The message list `_generate_chat_html` renders for a non-ignored chat:
fetched messages sorted by raw timestamp, then passed through the inline
filter.  No placeholder is ever substituted here. -/
def chatFilteredMessages (msgs : List Msg) : List Msg :=
  (sortMessages msgs).filter renderKeep

/-- The message list `_generate_channel_html` renders: the stored channel
messages sorted by raw timestamp, used as-is for an ignored channel and
passed through the inline filter otherwise. -/
def channelRenderedMessages (isIgnored : Bool) (msgs : List Msg) : List Msg :=
  let sorted := sortMessages msgs
  if isIgnored then sorted else sorted.filter renderKeep

/-- Python `', '.join(names)`. -/
def joinComma : List String → String
  | [] => ""
  | [x] => x
  | x :: xs => x ++ ", " ++ joinComma xs

/-- Embedding of `teams_utils.create_member_list_display`: empty list gives
`("Unknown", "Unknown")`; otherwise the first `max_display` names joined by
`", "` (with `"..."` appended when names were cut) paired with the full
joined list. -/
def create_member_list_display (member_names : List String) (max_display : Nat) :
    String × String :=
  if member_names.isEmpty then ("Unknown", "Unknown")
  else
    let limited_names := joinComma (member_names.take max_display)
    let full_member_list := joinComma member_names
    let limited_names :=
      if member_names.length > max_display then limited_names ++ "..." else limited_names
    (limited_names, full_member_list)

/-- The display name and tooltip member list computed by
`_process_group_chat`: members other than the exporting user (each member's
`displayName`, with `none` standing for a missing key), mapped through
`str(m.get('displayName', 'Unknown') or 'Unknown')`, passed to
`create_member_list_display`; when the chat has no topic, the name is
`"Group: " + limited` (or `"Group: Unknown"` if the limited string is empty). -/
def _process_group_chat_name (user_display_name topic : String)
    (members : List (Option String)) (cap : Nat) : String × String :=
  let other_members :=
    (members.filter fun m => m ≠ some user_display_name).map
      fun m =>
        match m with
        | some s => if s = "" then "Unknown" else s
        | none => "Unknown"
  let p := create_member_list_display other_members cap
  let chat_name :=
    if topic = "" then (if p.1 = "" then "Group: Unknown" else "Group: " ++ p.1) else topic
  (chat_name, p.2)

/-- Outcome of one `requests.get` in the pagination loop: `exn` when the call
raises, otherwise a response with its HTTP status, the decoded `value` batch
and the optional `@odata.nextLink`. -/
inductive ApiResponse (α : Type) where
  | exn : ApiResponse α
  | ok (status : Nat) (value : List α) (next : Option String) : ApiResponse α
deriving DecidableEq

/-- Fuel-driven worker for `make_paginated_request`: the `while url:` loop.
On status 200 the batch is appended and the cursor followed (a missing cursor
— or Python-falsy empty string on the next test — ends the loop); any other
status or an exception breaks immediately with what was accumulated. -/
def mprAux (server : String → ApiResponse α) : Nat → String → List α → List α
  | 0, _, acc => acc
  | fuel + 1, url, acc =>
    if url = "" then acc
    else
      match server url with
      | ApiResponse.exn => acc
      | ApiResponse.ok status items next =>
        if status = 200 then
          match next with
          | none => acc ++ items
          | some nexturl => mprAux server fuel nexturl (acc ++ items)
        else acc

/-- Embedding of `TeamsExporter._make_paginated_request`.  The server is a
function from URL to response; `fuel` bounds the number of loop iterations
(the Python loop has no such bound and can in principle chase cursors
forever, so termination facts below are stated for every sufficiently large
fuel). -/
def make_paginated_request (server : String → ApiResponse α) (fuel : Nat) (url : String) :
    List α :=
  mprAux server fuel url []

/-- Chain hypothesis: starting from the first URL, the server yields exactly
the given pages (status 200, each with a non-empty next cursor) and ends up
at the final URL. -/
def followsTo (server : String → ApiResponse α) :
    String → List (List α) → String → Prop
  | u, [], v => u = v
  | u, items :: rest, v =>
    u ≠ "" ∧ ∃ nexturl, nexturl ≠ "" ∧
      server u = ApiResponse.ok 200 items (some nexturl) ∧ followsTo server nexturl rest v

/-- Failure of a single request: an exception, or a response whose status is
not 200. -/
def isFail : ApiResponse α → Prop
  | ApiResponse.exn => True
  | ApiResponse.ok s _ _ => s ≠ 200

/-- The image loop leaves the content untouched when no URL in the match list
is platform-hosted: neither branch of the loop body fires. -/
theorem processImages_not_graph (env : ImgEnv) (token folder message_id : String) :
    ∀ (urls : List (List Char)) (idx : Nat) (content : List Char),
      (∀ u ∈ urls, isGraphUrl u = false) →
      processImages env token folder message_id idx urls content = content := by
  intro urls
  induction urls with
  | nil => intro idx content _; rfl
  | cons u us ih =>
    intro idx content h
    have hu : isGraphUrl u = false := h u (List.mem_cons_self u us)
    simp only [processImages, hu, Bool.false_eq_true, if_false]
    exact ih (idx + 1) content fun v hv => h v (List.mem_cons_of_mem u hv)

/-- Every URL for which the image loop issues an HTTP GET is platform-hosted. -/
theorem imageRequests_graph (env : ImgEnv) (folder message_id : String) :
    ∀ (urls : List (List Char)) (idx : Nat) (u : List Char),
      u ∈ imageRequests env folder message_id idx urls → isGraphUrl u = true := by
  intro urls
  induction urls with
  | nil => intro idx u h; simp [imageRequests] at h
  | cons v vs ih =>
    intro idx u h
    simp only [imageRequests] at h
    by_cases hc :
        (isGraphUrl v && !env.fileExists (localImagePath folder message_id idx)) = true
    · rw [if_pos hc] at h
      rcases List.mem_cons.mp h with rfl | h2
      · exact ((Bool.and_eq_true _ _).mp hc).1
      · exact ih _ _ h2
    · rw [if_neg hc] at h
      exact ih _ _ h

/-- When no URL in the match list is platform-hosted, no HTTP GET is issued. -/
theorem imageRequests_not_graph (env : ImgEnv) (folder message_id : String) :
    ∀ (urls : List (List Char)) (idx : Nat),
      (∀ u ∈ urls, isGraphUrl u = false) →
      imageRequests env folder message_id idx urls = [] := by
  intro urls
  induction urls with
  | nil => intro idx _; rfl
  | cons v vs ih =>
    intro idx h
    have hv : isGraphUrl v = false := h v (List.mem_cons_self v vs)
    simp only [imageRequests, hv, Bool.false_and, Bool.false_eq_true, if_false]
    exact ih (idx + 1) fun u hu => h u (List.mem_cons_of_mem v hu)

/-- Normalization of a body whose image references are all off-platform:
the downloader is never consulted and the result is exactly the
unescape / emoji / clean / wrap pipeline applied to the body. -/
theorem pmc_no_graph (env : ImgEnv) (raw message_id access_token image_folder : String)
    (h : ∀ u ∈ findImgSrcs (replace_emoji_tags (html_unescape raw.data)),
      isGraphUrl u = false) :
    process_message_content env raw message_id access_token image_folder =
      String.mk (wrap_images_with_lightbox (clean_img_tags
        (replace_emoji_tags (html_unescape raw.data)))) := by
  simp only [process_message_content]
  rw [processImages_not_graph env access_token image_folder message_id _ 0 _ h]

/-- Environment in which no image file exists and every GET raises
(a network error). -/
def envNone : ImgEnv := { fileExists := fun _ => false, http := fun _ => none }

/-- Environment in which no image file exists and every GET returns HTTP 404. -/
def envHttp404 : ImgEnv := { fileExists := fun _ => false, http := fun _ => some 404 }

/-- A body with a single externally hosted image carrying an extra attribute. -/
def extImgBody : String := "<p><img alt=\"pic\" src=\"https://example.com/a.png\"></p>"

/-- A platform-hosted image URL. -/
def graphUrlEx : String := "https://graph.microsoft.com/a"

/-- A body with a single platform-hosted image. -/
def graphImgBody : String := "<img src=\"https://graph.microsoft.com/a\">"

/-- A body whose single image reference is already a local path. -/
def localImgBody : String := "<img src=\"imgs/m_img0.jpg\">"

/-- Normalized form of `localImgBody`: the image wrapped in one lightbox anchor. -/
def resolvedBody : String :=
  "<a href=\"imgs/m_img0.jpg\" class=\"lightbox\"><img src=\"imgs/m_img0.jpg\"></a>"

/-- Result of re-normalizing `resolvedBody`: a second, nested lightbox anchor. -/
def doubleWrapped : String :=
  "<a href=\"imgs/m_img0.jpg\" class=\"lightbox\"><a href=\"imgs/m_img0.jpg\" class=\"lightbox\"><img src=\"imgs/m_img0.jpg\"></a></a>"

/-- Claim C1, counterexample: a body whose only image is externally hosted is
not left untouched by `process_message_content` — the output differs from the
input (the element is stripped to its `src` and wrapped in a lightbox anchor,
as the C1 witness shows explicitly). -/
theorem c1_counterexample :
    process_message_content envNone extImgBody "m1" "tok" "images" ≠ extImgBody := by
  decide

/-- Claim C1 (amended): every download request targets a platform-hosted URL
(`https://graph.microsoft.com...`), so an external image is never downloaded
and its URL is never replaced; but such an element is not left untouched —
for a body all of whose image references are off-platform, the output is the
clean/wrap pipeline applied to the body, which drops the element's other
attributes and wraps it in a lightbox anchor. -/
theorem c1_external_image_not_downloaded_but_rewritten :
    ∀ (env : ImgEnv) (raw message_id access_token image_folder : String),
      (∀ u ∈ imageRequestsOf env raw message_id image_folder, isGraphUrl u = true) ∧
      ((∀ u ∈ findImgSrcs (replace_emoji_tags (html_unescape raw.data)),
          isGraphUrl u = false) →
        process_message_content env raw message_id access_token image_folder =
          String.mk (wrap_images_with_lightbox (clean_img_tags
            (replace_emoji_tags (html_unescape raw.data))))) := by
  intro env raw message_id access_token image_folder
  constructor
  · intro u hu
    exact imageRequests_graph env image_folder message_id _ 0 u hu
  · intro h
    exact pmc_no_graph env raw message_id access_token image_folder h

/-- Claim C1, witness: the amended theorem applied to `extImgBody`, whose
normalized form keeps the external URL but drops the `alt` attribute and adds
the lightbox anchor. -/
theorem c1_witness :
    process_message_content envNone extImgBody "m1" "tok" "images" =
      "<p><a href=\"https://example.com/a.png\" class=\"lightbox\"><img src=\"https://example.com/a.png\"></a></p>" :=
  (((c1_external_image_not_downloaded_but_rewritten envNone extImgBody "m1" "tok"
    "images").2) (by decide)).trans (by decide)

/-- A nonempty message list that the filters discard entirely: its only
message has type `message` but no usable `from` field, so the sender
resolves to `"Unknown"`. -/
def unknownSenderMsg : Msg :=
  { id := "1"
    messageType := some "message"
    fromField := FromField.absent
    bodyContent := some "hello"
    createdDateTime := some "2024-01-01T00:00:00Z"
    lastModifiedDateTime := none }

/-- Claim C2, counterexample: a chat whose (nonempty) fetched message list is
emptied by the filter is rendered with zero messages — `_generate_chat_html`
substitutes no placeholder, so the claim fails for chats. -/
theorem c2_counterexample :
    ([unknownSenderMsg] : List Msg) ≠ [] ∧
    List.filter validate_message_content [unknownSenderMsg] = [] ∧
    chatFilteredMessages [unknownSenderMsg] = [] := by
  decide

/-- Claim C2 (amended): for every channel (not chat), if the kept-message
list is empty after filtering, `fetch_teams_and_channels` substitutes the
single synthetic `"No messages found in this channel."` placeholder, which
moreover survives the render-time filter, so no channel is rendered with
zero messages; chats receive no such placeholder (see the counterexample). -/
theorem c2_channel_placeholder :
    ∀ (now : String) (msgs : List Msg),
      msgs.filter validate_message_content = [] →
      channel_kept_messages now msgs = [noMessagesPlaceholder now] ∧
      channel_kept_messages now msgs ≠ [] ∧
      renderKeep (noMessagesPlaceholder now) = true := by
  intro now msgs h
  have hempty : (msgs.filter validate_message_content).isEmpty = true := by
    rw [h]; rfl
  refine ⟨?_, ?_, rfl⟩
  · simp only [channel_kept_messages, hempty, if_true]
  · simp only [channel_kept_messages, hempty, if_true]
    intro hcontra
    exact absurd hcontra (by simp)

/-- Claim C2, witness: the amended theorem at an empty fetched list. -/
theorem c2_witness :
    channel_kept_messages "2025-01-01T00:00:00" [] =
      [noMessagesPlaceholder "2025-01-01T00:00:00"] :=
  (c2_channel_placeholder "2025-01-01T00:00:00" [] rfl).1

/-- Claim C3: evaluation at the failing input.  With no file on disk and the
GET returning HTTP 404, `download_image_from_src` still returns the local
path (only the exception path returns `None`), so `process_message_content`
replaces the platform URL with a path to a file that was never written — the
URL does not remain in the markup, contradicting the claim for the
non-success-status case.  The final conjunct shows the network-error case,
where the code does behave as claimed: the URL remains (cleaned and
wrapped). -/
theorem c3_status_failure_resolves_to_missing_file :
    download_image_from_src envHttp404 graphUrlEx "tok" "images" "m1" 0 =
      some "images/m1_img0.jpg" ∧
    process_message_content envHttp404 graphImgBody "m1" "tok" "images" =
      "<a href=\"images/m1_img0.jpg\" class=\"lightbox\"><img src=\"images/m1_img0.jpg\"></a>" ∧
    containsSub graphUrlEx.data
      (process_message_content envHttp404 graphImgBody "m1" "tok" "images").data = false ∧
    process_message_content envNone graphImgBody "m1" "tok" "images" =
      "<a href=\"https://graph.microsoft.com/a\" class=\"lightbox\"><img src=\"https://graph.microsoft.com/a\"></a>" := by
  refine ⟨rfl, by decide, by decide, by decide⟩

/-- Claim C4, counterexample: re-running normalization on already-resolved
output is not the identity — the image, already inside a lightbox anchor,
gets wrapped in a second nested anchor. -/
theorem c4_counterexample :
    process_message_content envNone localImgBody "m" "tok" "imgs" = resolvedBody ∧
    process_message_content envNone resolvedBody "m" "tok" "imgs" = doubleWrapped ∧
    doubleWrapped ≠ resolvedBody := by
  refine ⟨by decide, by decide, by decide⟩

/-- Claim C4 (amended): re-running `process_message_content` on output whose
image references are all local paths (hence off-platform) performs no
download — because the platform-prefix test fails, before any file-exists
check — and the second pass equals the clean/wrap pipeline on the first
output: each image is wrapped in an additional lightbox anchor, so the result
is not byte-identical to the input. -/
theorem c4_second_pass_no_download_but_rewraps :
    ∀ (env env2 : ImgEnv) (raw mid tok folder mid2 tok2 folder2 : String),
      (∀ u ∈ findImgSrcs (replace_emoji_tags (html_unescape
          (process_message_content env raw mid tok folder).data)), isGraphUrl u = false) →
      imageRequestsOf env2 (process_message_content env raw mid tok folder) mid2 folder2
          = [] ∧
      process_message_content env2 (process_message_content env raw mid tok folder)
          mid2 tok2 folder2 =
        String.mk (wrap_images_with_lightbox (clean_img_tags (replace_emoji_tags
          (html_unescape (process_message_content env raw mid tok folder).data)))) := by
  intro env env2 raw mid tok folder mid2 tok2 folder2 h
  constructor
  · exact imageRequests_not_graph env2 folder2 mid2 _ 0 h
  · exact pmc_no_graph env2 _ mid2 tok2 folder2 h

/-- Claim C4, witness: the amended theorem at `localImgBody` — the second
pass issues no request and produces the doubly wrapped markup. -/
theorem c4_witness :
    process_message_content envNone
      (process_message_content envNone localImgBody "m" "tok" "imgs") "m" "tok" "imgs" =
      doubleWrapped :=
  ((c4_second_pass_no_download_but_rewraps envNone envNone localImgBody "m" "tok" "imgs"
    "m" "tok" "imgs" (by decide)).2).trans (by decide)

/-- One unfolding step of the pagination loop. -/
theorem mprAux_succ {α : Type} (server : String → ApiResponse α) (fuel : Nat)
    (url : String) (acc : List α) :
    mprAux server (fuel + 1) url acc =
      if url = "" then acc
      else
        match server url with
        | ApiResponse.exn => acc
        | ApiResponse.ok status items next =>
          if status = 200 then
            match next with
            | none => acc ++ items
            | some nexturl => mprAux server fuel nexturl (acc ++ items)
          else acc := rfl

/-- Accumulator characterization of the pagination loop along a page chain
that ends at a failing request. -/
theorem mprAux_followsTo {α : Type} (server : String → ApiResponse α) :
    ∀ (pages : List (List α)) (u0 ufail : String) (acc : List α) (fuel : Nat),
      followsTo server u0 pages ufail → ufail ≠ "" → isFail (server ufail) →
      mprAux server (fuel + pages.length + 1) u0 acc = acc ++ pages.flatten := by
  intro pages
  induction pages with
  | nil =>
    intro u0 ufail acc fuel h hne hf
    have hsub : u0 = ufail := h
    subst hsub
    simp only [List.length_nil, Nat.add_zero, List.flatten_nil, List.append_nil]
    rw [mprAux_succ, if_neg hne]
    cases hs : server u0 with
    | exn => rfl
    | ok s items next =>
      rw [hs] at hf
      have hns : ¬s = 200 := hf
      dsimp only
      rw [if_neg hns]
  | cons items rest ih =>
    intro u0 ufail acc fuel h hne hf
    obtain ⟨hu0, nexturl, hnx, hsrv, hrest⟩ := h
    have harith : fuel + (items :: rest).length + 1 = (fuel + rest.length + 1) + 1 := by
      simp only [List.length_cons]; omega
    rw [harith, mprAux_succ, if_neg hu0, hsrv]
    dsimp only
    rw [if_pos rfl]
    rw [ih nexturl ufail (acc ++ items) fuel hrest hne hf]
    simp [List.flatten_cons, List.append_assoc]

/-- Claim C5: if, after a chain of successful pages, the pagination loop hits
a request that raises or returns a non-success status, it terminates at once
(for every sufficient fuel) and returns exactly the items of the pages
fetched before the failure, in order — no retry, no partial-page recovery. -/
theorem c5_pagination_truncates_on_failure :
    ∀ {α : Type} (server : String → ApiResponse α) (u0 ufail : String)
      (pages : List (List α)) (fuel : Nat),
      followsTo server u0 pages ufail → ufail ≠ "" → isFail (server ufail) →
      make_paginated_request server (fuel + pages.length + 1) u0 = pages.flatten := by
  intro α server u0 ufail pages fuel h hne hf
  unfold make_paginated_request
  rw [mprAux_followsTo server pages u0 ufail [] fuel h hne hf]
  simp

/-- Server for the pagination witnesses: two good pages, then a 500. -/
def pageServer : String → ApiResponse Nat := fun u =>
  if u = "a" then ApiResponse.ok 200 [1, 2] (some "b")
  else if u = "b" then ApiResponse.ok 200 [3] (some "c")
  else if u = "c" then ApiResponse.ok 500 [99] none
  else ApiResponse.exn

/-- Claim C5, witness: two pages then a 500 yield exactly the two pages'
items, the failing page's items discarded. -/
theorem c5_witness : make_paginated_request pageServer 3 "a" = [1, 2, 3] :=
  c5_pagination_truncates_on_failure pageServer "a" "c" [[1, 2], [3]] 0
    ⟨by decide, "b", by decide, by decide, by decide, "c", by decide, by decide, rfl⟩
    (by decide) (by show (500 : Nat) ≠ 200; decide)

/-- Claim C6: a single-page response with no next-page cursor makes the loop
terminate after that one request (same result for every sufficient fuel),
returning exactly that page's items in order. -/
theorem c6_single_page_no_cursor :
    ∀ {α : Type} (server : String → ApiResponse α) (url : String) (items : List α)
      (fuel : Nat),
      url ≠ "" → server url = ApiResponse.ok 200 items none →
      make_paginated_request server (fuel + 1) url = items := by
  intro α server url items fuel h1 h2
  unfold make_paginated_request
  rw [mprAux_succ, if_neg h1, h2]
  dsimp only
  rw [if_pos rfl]
  rfl

/-- Server for the C6 witness: one page, no cursor. -/
def singlePageServer : String → ApiResponse Nat := fun u =>
  if u = "p" then ApiResponse.ok 200 [10, 20] none else ApiResponse.exn

/-- Claim C6, witness. -/
theorem c6_witness : make_paginated_request singlePageServer 1 "p" = [10, 20] :=
  c6_single_page_no_cursor singlePageServer "p" [10, 20] 0 (by decide) (by decide)

/-- Claim C7: before rendering, each chat's and each channel's message list
is sorted ascending by the raw `createdDateTime` string under lexicographic
(code-point) comparison — the rendered list is pairwise ordered by `msgLe`
and is a permutation of the kept messages. -/
theorem c7_messages_sorted_lex :
    ∀ (msgs : List Msg) (isIgnored : Bool),
      List.Pairwise msgLe (chatFilteredMessages msgs) ∧
      List.Perm (chatFilteredMessages msgs) (msgs.filter renderKeep) ∧
      List.Pairwise msgLe (channelRenderedMessages isIgnored msgs) ∧
      List.Perm (channelRenderedMessages false msgs) (msgs.filter renderKeep) := by
  intro msgs isIgnored
  have hsorted : List.Sorted msgLe (sortMessages msgs) :=
    List.sorted_insertionSort msgLe msgs
  have hperm : List.Perm (sortMessages msgs) msgs :=
    List.perm_insertionSort msgLe msgs
  refine ⟨?_, ?_, ?_, ?_⟩
  · exact hsorted.sublist (List.filter_sublist _)
  · exact hperm.filter renderKeep
  · cases isIgnored with
    | false =>
      simp only [channelRenderedMessages, if_false]
      exact hsorted.sublist (List.filter_sublist _)
    | true =>
      simp only [channelRenderedMessages, if_true]
      exact hsorted
  · simp only [channelRenderedMessages, if_false]
    exact hperm.filter renderKeep

/-- Claim C8: for a nonempty member list and cap `N`, the limited display
string is the first `N` names joined by `", "`, with `"..."` appended exactly
when more than `N` names remain, and the tooltip string is all names joined
by `", "`; instantiated at the four-name example of the spec with the
configured cap 3 and an empty topic, the group display name is
`"Group: Bob, Carol, Dan..."` and the tooltip `"Bob, Carol, Dan, Eve"`. -/
theorem c8_member_list_display :
    ∀ (names : List String) (N : Nat), names ≠ [] →
      (create_member_list_display names N =
        (if N < names.length then joinComma (names.take N) ++ "..."
         else joinComma (names.take N), joinComma names)) ∧
      _process_group_chat_name "Me" "" [some "Bob", some "Carol", some "Dan", some "Eve"] 3 =
        ("Group: Bob, Carol, Dan...", "Bob, Carol, Dan, Eve") := by
  intro names N h
  constructor
  · unfold create_member_list_display
    rw [if_neg (by simpa using h)]
  · decide

/-- Claim C8, witness: the theorem at the spec's example list and cap. -/
theorem c8_witness :
    create_member_list_display ["Bob", "Carol", "Dan", "Eve"] 3 =
      ("Bob, Carol, Dan...", "Bob, Carol, Dan, Eve") :=
  ((c8_member_list_display ["Bob", "Carol", "Dan", "Eve"] 3 (by decide)).1).trans (by decide)

/-- Claim C9: a message whose body strips to whitespace-only text and
contains no image reference is discarded by `validate_message_content` —
every branch of the filter returns `False` for it. -/
theorem c9_empty_no_image_discarded :
    ∀ (msg : Msg),
      stripWS (stripTags ((msg.bodyContent.getD "").data)) = [] →
      findImgSrcs ((msg.bodyContent.getD "").data) = [] →
      validate_message_content msg = false := by
  intro msg h1 h2
  simp only [validate_message_content]
  split
  · rfl
  · split
    · rfl
    · split
      · rfl
      · split
        · rfl
        · rw [h1, h2]
          rfl

/-- Claim C9, witness: a named-sender `message` whose body is a paragraph of
spaces is discarded. -/
theorem c9_witness :
    validate_message_content
      { id := "w"
        messageType := some "message"
        fromField := FromField.user (some "Alice")
        bodyContent := some "<p>   </p>"
        createdDateTime := some "2024-01-01T00:00:00Z"
        lastModifiedDateTime := none } = false :=
  c9_empty_no_image_discarded _ (by decide) (by decide)

/-- Claim C10: for every cap, `create_member_list_display` on an empty
member list returns `("Unknown", "Unknown")`, and consequently a group chat
with empty topic whose only member is the exporting user gets display name
`"Group: Unknown"` and tooltip `"Unknown"`. -/
theorem c10_empty_members_unknown :
    ∀ (N : Nat) (user : String),
      create_member_list_display [] N = ("Unknown", "Unknown") ∧
      _process_group_chat_name user "" [some user] N = ("Group: Unknown", "Unknown") := by
  intro N user
  refine ⟨rfl, ?_⟩
  unfold _process_group_chat_name
  have hfil : (([some user] : List (Option String)).filter fun m => m ≠ some user) = [] := by
    simp
  rw [hfil]
  rfl
